import Mathlib

/-!
Verification of the RBAC / multi-tenant / 2FA core of the
`nuxt-auth-service` module.

The TypeScript sources under `src/runtime/server/utils/` are shallowly
embedded here.  Conventions used throughout:

* Database tables are lists of row records; queries are embedded with the
  drizzle query builder's runtime semantics: a join's ON conditions always
  apply, `and(...)` inside one `.where(...)` composes conjunctively, a
  second `.where(...)` call on the same builder REPLACES the previously
  stored condition (drizzle overwrites `config.where`), and
  `eq(column, null)` compiles to SQL `column = NULL`, which matches no
  rows (`isNull(column)` would be the null check).
* JavaScript truthiness on strings ( `''` and `null`/`undefined` are
  falsy) is modelled explicitly where the code relies on it.
* Nondeterministic inputs (current time, `randomUUID`, `randomBytes`, the
  external `otpauth` TOTP validator) are threaded as parameters; the TOTP
  validator becomes an oracle `totpValid : String → String → Bool`.
* Fallible operations return `Except String _` when the code can throw
  (`createError`), and plain values when it degrades to a default.
-/

namespace NuxtAuth

/-- JavaScript truthiness of an optional string: `undefined`/`null` and the
empty string are falsy. -/
def jsTruthy : Option String → Bool
  | none => false
  | some s => !(s == "")

/-- Convenience predicate for `Except` results that are errors. -/
def isErr {ε α : Type} : Except ε α → Bool
  | .error _ => true
  | .ok _ => false

/-! ## Tenant detection (src/runtime/server/utils/tenant.ts)

`detectTenantFromSubdomain` reads the `host` header, splits it on `.`,
requires at least three labels, and rejects a denylist of reserved first
labels. -/

/-- Character-level splitter mirroring JavaScript `host.split('.')`:
every separator occurrence produces a field, so leading, trailing and
doubled dots produce empty-string fields. -/
def splitOnDotAux : List Char → List Char → List String
  | [], acc => [String.mk acc.reverse]
  | c :: cs, acc =>
    if c == '.' then String.mk acc.reverse :: splitOnDotAux cs []
    else splitOnDotAux cs (c :: acc)

/-- JavaScript `s.split('.')`. -/
def splitOnDot (s : String) : List String := splitOnDotAux s.toList []

/-- Embedding of `detectTenantFromSubdomain` (tenant.ts lines 60-75).  The
argument is the optional `host` header; `getHeader` yielding `undefined`
and the falsy check `if (!host)` are both modelled by the `none` / empty
cases.  `hostParts[0]` is total because `split` never returns an empty
array. -/
def detectTenantFromSubdomain (host : Option String) : Option String :=
  match host with
  | none => none
  | some h =>
    if h == "" then none
    else
      let hostParts := splitOnDot h
      if hostParts.length < 3 then none
      else
        let subdomain := hostParts.headD ""
        if ["www", "api", "admin", "app"].contains subdomain then none
        else some subdomain

/-- Embedding of the `if (!tenantId)` coercion in `initializeTenantContext`
(tenant.ts line 187): a falsy detected tenant (including the empty string)
is treated as "no tenant". -/
def effectiveTenantId (detected : Option String) : Option String :=
  if jsTruthy detected then detected else none

/-! ## Organization cache (src/runtime/server/utils/tenant.ts lines 227-259) -/

structure Organization where
  id : String
  name : String
  slug : String
deriving DecidableEq

structure OrgCacheEntry where
  org : Option Organization
  timestamp : Nat
deriving DecidableEq

/-- The in-process organization cache, a JavaScript `Map` keyed by
organization id (insertion order preserved). -/
abbrev OrgCache := List (String × OrgCacheEntry)

/-- Cache time-to-live: 5 minutes in milliseconds. -/
def CACHE_TTL : Nat := 5 * 60 * 1000

/-- JavaScript `Map.prototype.get`. -/
def mapGet (m : OrgCache) (k : String) : Option OrgCacheEntry :=
  (m.find? fun e => e.1 == k).map (·.2)

/-- JavaScript `Map.prototype.set`: update in place when the key exists,
append otherwise. -/
def mapSet (m : OrgCache) (k : String) (v : OrgCacheEntry) : OrgCache :=
  if m.any fun e => e.1 == k then m.map fun e => if e.1 == k then (k, v) else e
  else m ++ [(k, v)]

structure OrgLookupResult where
  org : Option Organization
  cache : OrgCache
  dbQueried : Bool
deriving DecidableEq

/-- The uncached tail of `getOrganizationById`: feature check, `select ...
where id = ? limit 1`, `result[0] || null`, then caching of the (possibly
null) result.  `dbQueried` records that the persistence store was
consulted. -/
def getOrganizationByIdQuery (dbEnabled : Bool) (now : Nat) (orgs : List Organization)
    (cache : OrgCache) (organizationId : String) : OrgLookupResult :=
  if !dbEnabled then ⟨none, cache, false⟩
  else
    let org := (orgs.filter fun o => o.id == organizationId).head?
    ⟨org, mapSet cache organizationId ⟨org, now⟩, true⟩

/-- Embedding of `getOrganizationById` (tenant.ts lines 230-259).  `now` is
`Date.now()`; `orgs` is the organizations table.  JavaScript
`now - cached.timestamp < CACHE_TTL` on a clock that ran backwards is
negative hence fresh; natural subtraction truncates to `0 < CACHE_TTL`,
which agrees. -/
def getOrganizationById (dbEnabled : Bool) (now : Nat) (orgs : List Organization)
    (cache : OrgCache) (organizationId : String) : OrgLookupResult :=
  match mapGet cache organizationId with
  | some cached =>
    if now - cached.timestamp < CACHE_TTL then ⟨cached.org, cache, false⟩
    else getOrganizationByIdQuery dbEnabled now orgs cache organizationId
  | none => getOrganizationByIdQuery dbEnabled now orgs cache organizationId

/-! ## Super-admin credential validation (src/runtime/server/utils/super-admin.ts) -/

/-- JavaScript `\s` whitespace test, restricted to the ASCII whitespace
characters (sufficient for the email-shape pattern on realistic input). -/
def isJsSpace (c : Char) : Bool :=
  c == ' ' || c == '\t' || c == '\n' || c == '\r' || c == '\x0b' || c == '\x0c'

/-- Character class `[^\s@]` of the email regex. -/
def emailClassA (c : Char) : Bool := !isJsSpace c && !(c == '@')

/-- Character class `[^\s.@]` of the email regex. -/
def emailClassB (c : Char) : Bool := !isJsSpace c && !(c == '.') && !(c == '@')

/-- All decompositions of a list into a prefix and a suffix, in order of
increasing prefix length. -/
def splitsOf : List Char → List (List Char × List Char)
  | [] => [([], [])]
  | c :: cs => ([], c :: cs) :: (splitsOf cs).map fun p => (c :: p.1, p.2)

/-- Embedding of the email-shape regex
`/^[^\s@]+@[^\s@][^\s.@]*\.[^\s@]+$/` from `validateSuperAdminCredentials`
(super-admin.ts line 304), as the existence of a decomposition
`A ++ "@" ++ c ++ B ++ "." ++ D` with the character classes of the
pattern. -/
def emailRegexAccepts (s : String) : Bool :=
  (splitsOf s.toList).any fun pa =>
    !pa.1.isEmpty && pa.1.all emailClassA &&
      (match pa.2 with
       | '@' :: c :: rest =>
         emailClassA c &&
           ((splitsOf rest).any fun pb =>
             pb.1.all emailClassB &&
               (match pb.2 with
                | '.' :: d => !d.isEmpty && d.all emailClassA
                | _ => false))
       | _ => false)

/-- Embedding of `getSuperAdminCredentials` (super-admin.ts lines 269-278):
the two environment variables, with JavaScript falsiness on `!login ||
!password`. -/
def getSuperAdminCredentials (login password : Option String) : Option (String × String) :=
  if !jsTruthy login || !jsTruthy password then none
  else some (login.getD "", password.getD "")

/-- Embedding of `validateSuperAdminCredentials` (super-admin.ts lines
283-308).  Returns `.error` where the code throws. -/
def validateSuperAdminCredentials (dbEnabled : Bool) (login password : Option String) :
    Except String Unit :=
  if !dbEnabled then .ok ()
  else
    match getSuperAdminCredentials login password with
    | none => .error "NUXT_SUPER_ADMIN_LOGIN and NUXT_SUPER_ADMIN_PASSWORD environment variables are required when using database features"
    | some credentials =>
      if credentials.2.length < 8 then
        .error "NUXT_SUPER_ADMIN_PASSWORD must be at least 8 characters long"
      else if !emailRegexAccepts credentials.1 then
        .error "NUXT_SUPER_ADMIN_LOGIN must be a valid email address"
      else .ok ()

/-! ## Relational data model (src/runtime/server/database schema, section 3 of the spec)

Tables are lists of rows; only the columns the verified operations touch
are modelled. -/

structure Permission where
  id : String
  slug : String
  resource : String
  action : String
deriving DecidableEq

structure RoleRow where
  id : String
  organizationId : Option String
  slug : String
  name : String
deriving DecidableEq

structure UserRole where
  userId : String
  roleId : String
  assignedAt : Nat
  assignedBy : Option String
deriving DecidableEq

structure RolePermission where
  roleId : String
  permissionId : String
deriving DecidableEq

structure UserRow where
  id : String
  organizationId : Option String
  email : String
  password : String
  twoFactorEnabled : Bool
  twoFactorSecret : Option String
deriving DecidableEq

structure RecoveryCode where
  id : String
  userId : String
  code : String
  used : Bool
  usedAt : Option Nat
deriving DecidableEq

structure Db where
  users : List UserRow
  organizations : List Organization
  roles : List RoleRow
  permissions : List Permission
  userRoles : List UserRole
  rolePermissions : List RolePermission
  recoveryCodes : List RecoveryCode
deriving DecidableEq

/-! ## Super-admin membership (src/runtime/server/utils/super-admin.ts lines 475-496) -/

/-- Drizzle `eq(column, null)` compiles to SQL `column = NULL`, whose
comparison is UNKNOWN for every row: the predicate matches nothing
(the null check would be `isNull(column)`, which this code does not use
in the places embedded here). -/
def sqlNullEq (_ : Option String) : Bool := false

/-- Embedding of `isSuperAdmin` (super-admin.ts lines 475-496): a join of
`userRoles` with `roles` on `roleId = id`, then
`.where(eq(userRoles.userId, userId)).where(eq(roles.slug, 'super-admin'))`,
`limit 1`, tested for non-emptiness.  Drizzle's second `.where` call
replaces the first, so the executed query keeps only the slug condition:
the `userId` argument is ignored, and the check passes for every user as
soon as any user-role row points at the `super-admin` role. -/
def isSuperAdmin (dbEnabled : Bool) (db : Db) (_userId : String) : Bool :=
  if !dbEnabled then false
  else
    db.userRoles.any fun ur =>
      db.roles.any fun r => r.id == ur.roleId && r.slug == "super-admin"

/-! ## RBAC engine (src/runtime/server/utils/rbac.ts) -/

/-- A role as returned by `getUserRoles`: the role row spread together
with its grouped permissions. -/
structure Role extends RoleRow where
  permissions : List Permission
deriving DecidableEq

/-- Left-join of one role row with `rolePermissions` and `permissions`
(the `leftJoin` pair in `getUserRoles`): no matching `RolePermission` row,
or a dangling `permissionId`, yields a null permission column. -/
def rolePermJoin (db : Db) (r : RoleRow) : List (RoleRow × Option Permission) :=
  let rps := db.rolePermissions.filter fun rp => rp.roleId == r.id
  if rps.isEmpty then [(r, none)]
  else
    rps.flatMap fun rp =>
      let ps := db.permissions.filter fun p => p.id == rp.permissionId
      if ps.isEmpty then [(r, none)] else ps.map fun p => (r, some p)

/-- The `userRoles → roles → rolePermissions → permissions` join of
`getUserRoles`, restricted to one user (rbac.ts lines 21-29). -/
def userRoleJoinRows (db : Db) (userId : String) : List (RoleRow × Option Permission) :=
  (db.userRoles.filter fun ur => ur.userId == userId).flatMap fun ur =>
    (db.roles.filter fun r => r.id == ur.roleId).flatMap fun r => rolePermJoin db r

/-- The same join with no user restriction: the row set that remains once
the `userId` `.where` condition has been overwritten. -/
def allUserRoleJoinRows (db : Db) : List (RoleRow × Option Permission) :=
  db.userRoles.flatMap fun ur =>
    (db.roles.filter fun r => r.id == ur.roleId).flatMap fun r => rolePermJoin db r

/-- Organization handling of `getUserRoles` (rbac.ts lines 31-38).  The
outer `Option` is the TypeScript `undefined`: with no organizationId only
the single `.where(userId)` applies and the rows are the user's own.
When an organizationId is supplied, `query.where(orgCond)` is called on
the same builder, and drizzle replaces the stored `userId` condition, so
the executed filter is the organization condition alone over every user's
rows; the explicitly-null branch uses `eq(roles.organizationId, null)`,
which compiles to `= NULL` and matches no rows. -/
def scopedJoinRows (db : Db) (userId : String) (organizationId : Option (Option String)) :
    List (RoleRow × Option Permission) :=
  match organizationId with
  | none => userRoleJoinRows db userId
  | some none => (allUserRoleJoinRows db).filter fun row => sqlNullEq row.1.organizationId
  | some (some orgId) =>
    (allUserRoleJoinRows db).filter fun row => row.1.organizationId == some orgId

/-- One iteration of the grouping loop of `getUserRoles` (rbac.ts lines
45-58): materialise the role on first sight, then push a non-null
permission onto its bucket.  The accumulator is the `Map` as an
insertion-ordered association list. -/
def groupStep (acc : List Role) (row : RoleRow × Option Permission) : List Role :=
  let acc1 := if acc.any fun g => g.id == row.1.id then acc else acc ++ [⟨row.1, []⟩]
  match row.2 with
  | none => acc1
  | some p => acc1.map fun g =>
      if g.id == row.1.id then { g with permissions := g.permissions ++ [p] } else g

/-- The grouping loop of `getUserRoles`. -/
def groupRoles (rows : List (RoleRow × Option Permission)) : List Role :=
  rows.foldl groupStep []

/-- Embedding of `getUserRoles` (rbac.ts lines 13-66). -/
def getUserRoles (dbEnabled : Bool) (db : Db) (userId : String)
    (organizationId : Option (Option String)) : List Role :=
  if !dbEnabled then [] else groupRoles (scopedJoinRows db userId organizationId)

/-- One `Map.set` of the permission-flattening loop in
`getUserPermissions`: overwrite at the first-insertion position when the
id is already present, append otherwise. -/
def permInsert (acc : List Permission) (p : Permission) : List Permission :=
  if acc.any fun q => q.id == p.id then acc.map fun q => if q.id == p.id then p else q
  else acc ++ [p]

/-- Embedding of `getUserPermissions` (rbac.ts lines 71-84). -/
def getUserPermissions (dbEnabled : Bool) (db : Db) (userId : String)
    (organizationId : Option (Option String)) : List Permission :=
  ((getUserRoles dbEnabled db userId organizationId).flatMap fun r => r.permissions).foldl
    permInsert []

/-- The object form of a `PermissionCheck` (types/rbac.ts): optional
`permission` slug or an optional `resource`/`action` pair. -/
structure PermissionCheck where
  permission : Option String
  resource : Option String
  action : Option String
deriving DecidableEq

/-- A `hasPermission` check argument: a plain slug string or a
`PermissionCheck` object. -/
inductive Check where
  | str (slug : String)
  | query (c : PermissionCheck)
deriving DecidableEq

/-- The check dispatch of `hasPermission` (rbac.ts lines 101-113),
including the JavaScript truthiness tests on the object fields. -/
def permCheckMatches (permissions : List Permission) (check : Check) : Bool :=
  match check with
  | .str s => permissions.any fun p => p.slug == s
  | .query c =>
    if jsTruthy c.permission then permissions.any fun p => some p.slug == c.permission
    else if jsTruthy c.resource && jsTruthy c.action then
      permissions.any fun p => some p.resource == c.resource && some p.action == c.action
    else false

/-- Embedding of `hasPermission` (rbac.ts lines 89-114): the super-admin
short-circuit first, then the scoped permission evaluation. -/
def hasPermission (dbEnabled : Bool) (db : Db) (userId : String) (check : Check)
    (organizationId : Option (Option String)) : Bool :=
  if isSuperAdmin dbEnabled db userId then true
  else permCheckMatches (getUserPermissions dbEnabled db userId organizationId) check

/-- Role lookup condition of `assignRole`/`removeRole` (rbac.ts lines
264-274): one `.where(and(slug, orgBranch))`, composed conjunctively, the
branch selected by JavaScript truthiness of `organizationId`.  The falsy
branch is `eq(roles.organizationId, null)`, which compiles to `= NULL`
and matches no rows, so a null-scope lookup never finds a role. -/
def roleLookupMatches (roleSlug : String) (organizationId : Option String) (r : RoleRow) : Bool :=
  r.slug == roleSlug &&
    (if jsTruthy organizationId then r.organizationId == organizationId
     else sqlNullEq r.organizationId)

/-- Embedding of `assignRole` (rbac.ts lines 250-309): find the role
(`limit 1`), return true without inserting when the user already has it,
otherwise insert one `UserRole` row.  `now` is the `assignedAt`
timestamp. -/
def assignRole (dbEnabled : Bool) (db : Db) (userId roleSlug : String)
    (organizationId : Option String) (now : Nat) (assignedBy : Option String) : Bool × Db :=
  if !dbEnabled then (false, db)
  else
    match (db.roles.filter (roleLookupMatches roleSlug organizationId)).head? with
    | none => (false, db)
    | some role =>
      if !(db.userRoles.filter fun ur => ur.userId == userId && ur.roleId == role.id).isEmpty then
        (true, db)
      else
        (true, { db with userRoles := db.userRoles ++ [⟨userId, role.id, now, assignedBy⟩] })

/-- Number of `UserRole` rows for one (user, role) pair. -/
def countAssignments (db : Db) (userId roleId : String) : Nat :=
  (db.userRoles.filter fun ur => ur.userId == userId && ur.roleId == roleId).length

/-- Session user as delivered by the external session store.  Modelled
from the spec: `getUserSession` lives outside the extracted sources; the
spec's Session Store contract is `getSession(request) -> (user?, ...)`,
so a session carries an optional user with an id. -/
structure SessionUser where
  id : String
deriving DecidableEq

/-- Modelled from the spec: a session as returned by the external session
store, an optional user. -/
structure Session where
  user : Option SessionUser
deriving DecidableEq

/-- User part of a `getUserSessionWithRBAC` result; `isSuperAdmin = none`
models the field being absent (unauthenticated spread path). -/
structure RBACSessionUser where
  id : String
  isSuperAdmin : Option Bool
deriving DecidableEq

/-- Result shape of `getUserSessionWithRBAC`. -/
structure RBACSession where
  user : Option RBACSessionUser
  roles : List Role
  permissions : List Permission
deriving DecidableEq

/-- Embedding of `getUserSessionWithRBAC` (rbac.ts lines 224-245).
`tenantId` is `getCurrentTenantId(event)`, always passed explicitly
(`string | null`), hence the `some tenantId` scope.  The guard is the
JavaScript truthiness of `session.user?.id`. -/
def getUserSessionWithRBAC (dbEnabled : Bool) (db : Db) (session : Session)
    (tenantId : Option String) : RBACSession :=
  match session.user with
  | none => ⟨none, [], []⟩
  | some u =>
    if u.id == "" then ⟨some ⟨u.id, none⟩, [], []⟩
    else
      ⟨some ⟨u.id, some (isSuperAdmin dbEnabled db u.id)⟩,
       getUserRoles dbEnabled db u.id (some tenantId),
       getUserPermissions dbEnabled db u.id (some tenantId)⟩

/-! ## TOTP / 2FA engine (src/runtime/server/utils/totp.ts)

The external `otpauth` validator is the oracle `totpValid secret token`
(the code always calls it with the default window); `randomUUID` is the
successive-id source `uuid : Nat → String`; `txFails` models the
persistence layer throwing inside the `db.transaction` block, which the
gateway's atomicity rolls back to the unchanged state. -/

/-- Result shape of `verify2FA` (types/totp.ts): optional fields model
absent object properties. -/
structure TOTPVerification where
  isValid : Bool
  isBackupCode : Option Bool
  remainingBackupCodes : Option Nat
deriving DecidableEq

/-- Count of a user's unused recovery codes, the `count(*)` query used by
`verify2FA` and `getBackupCodesCount`. -/
def countUnusedCodes (db : Db) (userId : String) : Nat :=
  (db.recoveryCodes.filter fun rc => rc.userId == userId && rc.used == false).length

/-- The recovery-code insertion loop shared by `enable2FA` and
`generateNewBackupCodes` (totp.ts lines 106-114 and 260-268): one row per
code, fresh `randomUUID` id, `used: false`. -/
def insertCodes (uuid : Nat → String) (userId : String) : Nat → List String → List RecoveryCode
  | _, [] => []
  | i, c :: cs => ⟨uuid i, userId, c, false, none⟩ :: insertCodes uuid userId (i + 1) cs

/-- Embedding of `verify2FA` (totp.ts lines 162-232): load the user
(`limit 1`), bail out unless 2FA is enabled with a truthy secret, try
TOTP first, then look for an unused recovery code with exactly this code,
mark it used with the current timestamp and count the remaining unused
codes in the updated state. -/
def verify2FA (dbEnabled : Bool) (totpValid : String → String → Bool) (now : Nat)
    (db : Db) (userId code : String) : TOTPVerification × Db :=
  if !dbEnabled then (⟨false, none, none⟩, db)
  else
    match (db.users.filter fun u => u.id == userId).head? with
    | none => (⟨false, none, none⟩, db)
    | some user =>
      if !user.twoFactorEnabled || !jsTruthy user.twoFactorSecret then (⟨false, none, none⟩, db)
      else if totpValid (user.twoFactorSecret.getD "") code then (⟨true, none, none⟩, db)
      else
        match (db.recoveryCodes.filter fun rc =>
            rc.userId == userId && rc.code == code && rc.used == false).head? with
        | none => (⟨false, none, none⟩, db)
        | some backupCode =>
          let db1 : Db := { db with recoveryCodes := db.recoveryCodes.map fun rc =>
            if rc.id == backupCode.id then { rc with used := true, usedAt := some now } else rc }
          (⟨true, some true, some (countUnusedCodes db1 userId)⟩, db1)

/-- Embedding of `enable2FA` (totp.ts lines 74-123): throw without a
database, re-verify the token, then in one transaction store the secret
and flag on the user, delete the user's recovery codes and insert the new
batch; a transaction failure is caught and yields `false` with the state
rolled back. -/
def enable2FA (dbEnabled txFails : Bool) (totpValid : String → String → Bool)
    (uuid : Nat → String) (db : Db) (userId secret token : String)
    (backupCodes : List String) : Except String (Bool × Db) :=
  if !dbEnabled then .error "2FA requires database configuration"
  else if !totpValid secret token then .ok (false, db)
  else if txFails then .ok (false, db)
  else
    .ok (true, { db with
      users := db.users.map fun u =>
        if u.id == userId then
          { u with twoFactorEnabled := true, twoFactorSecret := some secret }
        else u,
      recoveryCodes := (db.recoveryCodes.filter fun rc => !(rc.userId == userId))
        ++ insertCodes uuid userId 0 backupCodes })

/-- Embedding of `disable2FA` (totp.ts lines 128-157): returns `false`
(never throws — the return type is total) without a database or on a
transaction failure; otherwise clears the flag and secret and deletes all
of the user's recovery codes, used and unused. -/
def disable2FA (dbEnabled txFails : Bool) (db : Db) (userId : String) : Bool × Db :=
  if !dbEnabled then (false, db)
  else if txFails then (false, db)
  else
    (true, { db with
      users := db.users.map fun u =>
        if u.id == userId then
          { u with twoFactorEnabled := false, twoFactorSecret := none }
        else u,
      recoveryCodes := db.recoveryCodes.filter fun rc => !(rc.userId == userId) })

/-- Embedding of `generateNewBackupCodes` (totp.ts lines 237-280): throws
without a database and rethrows on a transaction failure; otherwise
deletes only the user's unused recovery codes and inserts the freshly
generated batch (`freshCodes` stands for the `generateBackupCodes`
output, whose entropy is external). -/
def generateNewBackupCodes (dbEnabled txFails : Bool) (uuid : Nat → String) (db : Db)
    (userId : String) (freshCodes : List String) : Except String (List String × Db) :=
  if !dbEnabled then .error "Backup codes require database configuration"
  else if txFails then .error "Failed to generate backup codes"
  else
    .ok (freshCodes, { db with
      recoveryCodes := (db.recoveryCodes.filter fun rc =>
          !(rc.userId == userId && rc.used == false))
        ++ insertCodes uuid userId 0 freshCodes })

/-! ## Helper lemmas -/

theorem head?_filter_spec {α : Type} (p : α → Bool) (l : List α) (a : α)
    (h : (l.filter p).head? = some a) : a ∈ l ∧ p a = true := by
  have hm : a ∈ l.filter p := by
    cases hl : l.filter p with
    | nil => rw [hl] at h; cases h
    | cons x xs =>
      rw [hl] at h
      have hx : x = a := by simpa using h
      rw [← hx]
      exact List.mem_cons_self x xs
  exact ⟨(List.mem_filter.mp hm).1, (List.mem_filter.mp hm).2⟩

theorem mem_insertCodes {uuid : Nat → String} {u : String} {codes : List String}
    {i : Nat} {rc : RecoveryCode} (h : rc ∈ insertCodes uuid u i codes) :
    rc.userId = u ∧ rc.code ∈ codes ∧ rc.used = false := by
  induction codes generalizing i with
  | nil => cases h
  | cons c cs ih =>
    rcases List.mem_cons.mp h with hf | hr
    · subst hf
      exact ⟨rfl, List.mem_cons_self _ _, rfl⟩
    · obtain ⟨h1, h2, h3⟩ := ih hr
      exact ⟨h1, List.mem_cons_of_mem _ h2, h3⟩

theorem insertCodes_covers {uuid : Nat → String} {u : String} {codes : List String}
    {c : String} (h : c ∈ codes) (i : Nat) :
    ∃ rc ∈ insertCodes uuid u i codes, rc.userId = u ∧ rc.code = c ∧ rc.used = false := by
  induction codes generalizing i with
  | nil => cases h
  | cons x xs ih =>
    rcases List.mem_cons.mp h with hf | hr
    · subst hf
      exact ⟨⟨uuid i, u, c, false, none⟩, List.mem_cons_self _ _, rfl, rfl, rfl⟩
    · obtain ⟨rc, hmem, hp⟩ := ih hr (i + 1)
      exact ⟨rc, List.mem_cons_of_mem _ hmem, hp⟩

theorem verify2FA_totp_fail_no_recovery_match
    (totpValid : String → String → Bool) (now : Nat) (db : Db)
    (userId code secret : String) (user : UserRow)
    (hu : (db.users.filter fun u => u.id == userId).head? = some user)
    (hen : user.twoFactorEnabled = true)
    (hsec : user.twoFactorSecret = some secret)
    (hsne : secret ≠ "")
    (hf : totpValid secret code = false)
    (hnone : (db.recoveryCodes.filter fun rc =>
      rc.userId == userId && rc.code == code && rc.used == false).head? = none) :
    verify2FA true totpValid now db userId code = (⟨false, none, none⟩, db) := by
  have hjs : jsTruthy user.twoFactorSecret = true := by
    simp [hsec, jsTruthy, hsne]
  have hget : user.twoFactorSecret.getD "" = secret := by rw [hsec]; rfl
  have hfind : List.find? (fun rc => rc.userId == userId && rc.code == code && !rc.used)
      db.recoveryCodes = none := by simpa using hnone
  simp [verify2FA, hu, hen, hjs, hget, hf, hfind]

theorem mapGet_eq_none_iff (m : OrgCache) (k : String) :
    mapGet m k = none ↔ ∀ e ∈ m, ¬(e.1 == k) = true := by
  simp [mapGet, List.find?_eq_none]

theorem mapGet_append_of_none (m l : OrgCache) (k : String) (h : mapGet m k = none) :
    mapGet (m ++ l) k = mapGet l k := by
  induction m with
  | nil => simp
  | cons e es ih =>
    rw [mapGet_eq_none_iff] at h
    have he : (e.1 == k) = false := by
      have := h e (by simp)
      simpa using this
    have hes : mapGet es k = none := by
      rw [mapGet_eq_none_iff]
      intro x hx
      exact h x (by simp [hx])
    simp only [List.cons_append, mapGet, List.find?] at *
    rw [he] at *
    simp only [mapGet] at ih hes ⊢
    exact ih hes

theorem mapSet_of_absent (m : OrgCache) (k : String) (v : OrgCacheEntry)
    (h : mapGet m k = none) : mapSet m k v = m ++ [(k, v)] := by
  rw [mapGet_eq_none_iff] at h
  have hany : (m.any fun e => e.1 == k) = false := by
    rw [List.any_eq_false]
    intro e he
    exact h e he
  simp [mapSet, hany]

/-- C2 (code bug evidence): `query.where(orgCond)` in `getUserRoles`
overwrites the previously stored `userId` condition, so an explicitly
scoped lookup runs over every user's role rows.  In a database where the
acme admin role (carrying `users.manage`) is assigned only to `user-2`,
the scoped lookup for `user-1` returns that role and `hasPermission`
grants `user-1` the permission, although without a scope `user-1` holds
no roles at all; and an explicitly-null scope compiles to `= NULL` and
returns nothing even for a held system-wide role.  The spec's single-user
end-to-end scenario still evaluates as documented. -/
theorem C2_getUserRoles_scope_overwrites_user_filter :
    ((getUserRoles true
        ⟨[], [⟨"acme-org-id", "Acme", "acme"⟩],
         [⟨"role-admin", some "acme-org-id", "admin", "Admin"⟩],
         [⟨"perm-1", "users.manage", "users", "manage"⟩],
         [⟨"user-2", "role-admin", 0, none⟩], [⟨"role-admin", "perm-1"⟩], []⟩
        "user-1" (some (some "acme-org-id"))).map fun g => g.slug) = ["admin"] ∧
    hasPermission true
      ⟨[], [⟨"acme-org-id", "Acme", "acme"⟩],
       [⟨"role-admin", some "acme-org-id", "admin", "Admin"⟩],
       [⟨"perm-1", "users.manage", "users", "manage"⟩],
       [⟨"user-2", "role-admin", 0, none⟩], [⟨"role-admin", "perm-1"⟩], []⟩
      "user-1" (Check.str "users.manage") (some (some "acme-org-id")) = true ∧
    getUserRoles true
      ⟨[], [⟨"acme-org-id", "Acme", "acme"⟩],
       [⟨"role-admin", some "acme-org-id", "admin", "Admin"⟩],
       [⟨"perm-1", "users.manage", "users", "manage"⟩],
       [⟨"user-2", "role-admin", 0, none⟩], [⟨"role-admin", "perm-1"⟩], []⟩
      "user-1" none = [] ∧
    getUserRoles true
      ⟨[], [], [⟨"role-sys", none, "sysrole", "Sys"⟩], [],
       [⟨"user-2", "role-sys", 0, none⟩], [], []⟩
      "user-2" (some none) = [] ∧
    hasPermission true
      ⟨[], [⟨"acme-org-id", "Acme", "acme"⟩],
       [⟨"role-admin", some "acme-org-id", "admin", "Admin"⟩],
       [⟨"perm-1", "users.manage", "users", "manage"⟩],
       [⟨"user-1", "role-admin", 0, none⟩], [⟨"role-admin", "perm-1"⟩], []⟩
      "user-1" (Check.str "users.manage") (some (some "acme-org-id")) = true ∧
    hasPermission true
      ⟨[], [⟨"acme-org-id", "Acme", "acme"⟩],
       [⟨"role-admin", some "acme-org-id", "admin", "Admin"⟩],
       [⟨"perm-1", "users.manage", "users", "manage"⟩],
       [⟨"user-1", "role-admin", 0, none⟩], [⟨"role-admin", "perm-1"⟩], []⟩
      "user-1" (Check.str "users.manage") (some (some "other-org-id")) = false := by
  refine ⟨by decide, by decide, by decide, by decide, by decide, by decide⟩

/-- C3 (code bug evidence): under the subdomain strategy,
`acme.example.com` yields `acme`, `www.example.com` (denylisted) and
`localhost:3000` (fewer than three labels) yield null, but the malformed
host `...invalid...example.com` yields the empty string — its first
dot-separated label — rather than the null required by the claim and by
the repository's own tenant unit test; only the caller's falsy check in
`initializeTenantContext` coerces it to a null tenant context. -/
theorem C3_detectTenantFromSubdomain_examples :
    detectTenantFromSubdomain (some "acme.example.com") = some "acme" ∧
    detectTenantFromSubdomain (some "www.example.com") = none ∧
    detectTenantFromSubdomain (some "localhost:3000") = none ∧
    detectTenantFromSubdomain (some "...invalid...example.com") = some "" ∧
    effectiveTenantId (detectTenantFromSubdomain (some "...invalid...example.com")) = none := by
  refine ⟨by decide, by decide, by decide, by decide, by decide⟩

/-- C9: with database features enabled, `validateSuperAdminCredentials`
raises exactly when the configured credentials violate a constraint:
either the login or password is absent (including empty, by JavaScript
falsiness), the password is shorter than 8 characters, or the login fails
the email-shape pattern; otherwise it returns normally. -/
theorem C9_validateSuperAdminCredentials_error_iff (login password : Option String) :
    isErr (validateSuperAdminCredentials true login password) = true ↔
      (getSuperAdminCredentials login password = none ∨
       ∃ l p, getSuperAdminCredentials login password = some (l, p) ∧
         (p.length < 8 ∨ emailRegexAccepts l = false)) := by
  unfold validateSuperAdminCredentials
  cases hc : getSuperAdminCredentials login password with
  | none => simp [isErr]
  | some cred =>
    obtain ⟨l, p⟩ := cred
    by_cases h8 : p.length < 8
    · simp [isErr, h8]
      exact ⟨l, p, ⟨rfl, rfl⟩, Or.inl h8⟩
    · by_cases he : emailRegexAccepts l
      · simp [isErr, h8, he]
        omega
      · simp [isErr, h8, he]
        exact ⟨l, p, ⟨rfl, rfl⟩, Or.inr (by simpa using he)⟩

/-- C9 witness: a concrete too-short password is rejected. -/
theorem C9_validateSuperAdminCredentials_error_iff_witness :
    isErr (validateSuperAdminCredentials true (some "admin@example.com") (some "pw")) = true := by
  have h := C9_validateSuperAdminCredentials_error_iff (some "admin@example.com") (some "pw")
  exact h.mpr (Or.inr ⟨"admin@example.com", "pw", by decide, Or.inl (by decide)⟩)

/-- C10: a lookup miss on `getOrganizationById` stores the null result in
the cache with the current timestamp, and every later call within the
5-minute `CACHE_TTL` returns null from the cache without consulting the
persistence store, whatever the organizations table (or even the database
feature flag) has become in the meantime. -/
theorem C10_getOrganizationById_caches_negative (now : Nat) (orgs : List Organization)
    (cache : OrgCache) (oid : String)
    (hmiss : mapGet cache oid = none)
    (hdb : orgs.filter (fun o => o.id == oid) = []) :
    getOrganizationById true now orgs cache oid =
      ⟨none, mapSet cache oid ⟨none, now⟩, true⟩ ∧
    mapGet (mapSet cache oid ⟨none, now⟩) oid = some ⟨none, now⟩ ∧
    ∀ (dbE2 : Bool) (now2 : Nat) (orgs2 : List Organization),
      now2 - now < CACHE_TTL →
      getOrganizationById dbE2 now2 orgs2 (mapSet cache oid ⟨none, now⟩) oid =
        ⟨none, mapSet cache oid ⟨none, now⟩, false⟩ := by
  have hset : mapSet cache oid ⟨none, now⟩ = cache ++ [(oid, ⟨none, now⟩)] :=
    mapSet_of_absent cache oid _ hmiss
  have hget : mapGet (mapSet cache oid ⟨none, now⟩) oid = some ⟨none, now⟩ := by
    rw [hset, mapGet_append_of_none cache _ oid hmiss]
    simp [mapGet, List.find?]
  refine ⟨?_, hget, ?_⟩
  · unfold getOrganizationById
    rw [hmiss]
    unfold getOrganizationByIdQuery
    simp [hdb]
  · intro dbE2 now2 orgs2 hfresh
    unfold getOrganizationById
    rw [hget]
    simp [hfresh]

/-- C10 witness: concrete negative-caching run in which the organization
is created between the two calls and the second call still returns null. -/
theorem C10_getOrganizationById_caches_negative_witness :
    getOrganizationById false (CACHE_TTL - 1) [⟨"org-1", "Acme", "acme"⟩]
        (mapSet [] "org-1" ⟨none, 0⟩) "org-1" =
      ⟨none, mapSet [] "org-1" ⟨none, 0⟩, false⟩ := by
  have h := C10_getOrganizationById_caches_negative 0 [] [] "org-1" (by decide) (by decide)
  exact h.2.2 false (CACHE_TTL - 1) [⟨"org-1", "Acme", "acme"⟩] (by decide)

/-- C1 (code bug evidence): drizzle's second `.where` call replaces the
first, so `isSuperAdmin` runs with only the slug condition and the
super-admin bypass fires for every user as soon as anyone holds the role.
In a database whose only assignment gives `u1` the `super-admin` role,
the holder `u1` passes an unregistered permission check in a foreign
organization scope (the claim's positive half), but so do `isSuperAdmin`
and `hasPermission` for `u2`, who holds no role at all — the claim's
converse, that the bypass does not fire for non-holders, is false of the
program.  With no super-admin assignment anywhere the check falls through
to the scoped evaluation and denies. -/
theorem C1_isSuperAdmin_drops_user_filter :
    hasPermission true
        ⟨[], [], [⟨"r1", none, "super-admin", "Super Admin"⟩], [],
         [⟨"u1", "r1", 0, none⟩], [], []⟩
        "u1" (Check.str "nothing.registered") (some (some "org-b")) = true ∧
    isSuperAdmin true
        ⟨[], [], [⟨"r1", none, "super-admin", "Super Admin"⟩], [],
         [⟨"u1", "r1", 0, none⟩], [], []⟩
        "u2" = true ∧
    hasPermission true
        ⟨[], [], [⟨"r1", none, "super-admin", "Super Admin"⟩], [],
         [⟨"u1", "r1", 0, none⟩], [], []⟩
        "u2" (Check.str "nothing.registered") (some (some "org-b")) = true ∧
    hasPermission true
        ⟨[], [], [⟨"r1", none, "super-admin", "Super Admin"⟩], [], [], [], []⟩
        "u2" (Check.str "nothing.registered") (some (some "org-b")) = false := by
  refine ⟨by decide, by decide, by decide, by decide⟩

/-- C6 (code bug evidence): with a truthy organizationId the role lookup
works and assignment is idempotent — two identical calls both return true
and leave exactly one `UserRole` row — and a missing slug returns false
without inserting; but the falsy-organizationId branch uses
`eq(roles.organizationId, null)`, which compiles to `= NULL` and matches
no rows, so with a null organizationId an existing system-wide role is
never found and `assignRole` returns false and inserts nothing, where the
claim requires both calls to return true. -/
theorem C6_assignRole_null_scope_broken :
    (assignRole true
        ⟨[], [], [⟨"r1", some "org-1", "admin", "Admin"⟩], [], [], [], []⟩
        "u1" "admin" (some "org-1") 0 none).1 = true ∧
    (assignRole true
        (assignRole true
          ⟨[], [], [⟨"r1", some "org-1", "admin", "Admin"⟩], [], [], [], []⟩
          "u1" "admin" (some "org-1") 0 none).2
        "u1" "admin" (some "org-1") 1 none).1 = true ∧
    countAssignments
      (assignRole true
        (assignRole true
          ⟨[], [], [⟨"r1", some "org-1", "admin", "Admin"⟩], [], [], [], []⟩
          "u1" "admin" (some "org-1") 0 none).2
        "u1" "admin" (some "org-1") 1 none).2 "u1" "r1" = 1 ∧
    assignRole true
      ⟨[], [], [⟨"r1", some "org-1", "admin", "Admin"⟩], [], [], [], []⟩
      "u1" "ghost" (some "org-1") 0 none =
      (false, ⟨[], [], [⟨"r1", some "org-1", "admin", "Admin"⟩], [], [], [], []⟩) ∧
    assignRole true
      ⟨[], [], [⟨"rs", none, "super-admin", "Super Admin"⟩], [], [], [], []⟩
      "u1" "super-admin" none 0 none =
      (false, ⟨[], [], [⟨"rs", none, "super-admin", "Super Admin"⟩], [], [], [], []⟩) := by
  refine ⟨by decide, by decide, by decide, by decide, by decide⟩

/-- C7: for a session with no authenticated user (the session store
returned no user), `getUserSessionWithRBAC` returns exactly the record
with a present-but-null user and empty role and permission lists,
whatever the database, feature flag and tenant scope are. -/
theorem C7_getUserSessionWithRBAC_unauthenticated (dbEnabled : Bool) (db : Db)
    (session : Session) (tenantId : Option String) (h : session.user = none) :
    getUserSessionWithRBAC dbEnabled db session tenantId = ⟨none, [], []⟩ := by
  simp [getUserSessionWithRBAC, h]

/-- C7 witness: the empty session on an empty database. -/
theorem C7_getUserSessionWithRBAC_unauthenticated_witness :
    getUserSessionWithRBAC false ⟨[], [], [], [], [], [], []⟩ ⟨none⟩ none = ⟨none, [], []⟩ :=
  C7_getUserSessionWithRBAC_unauthenticated false ⟨[], [], [], [], [], [], []⟩ ⟨none⟩ none rfl

/-- C5: `enable2FA` re-verifies the token and returns false with the
state unchanged when it is invalid; on a valid token it atomically
enables 2FA with the stored secret, replaces every recovery code of the
user by the new batch (unused), and leaves other users' rows alone; a
transaction failure yields false with the state rolled back; and a
missing database throws a configuration error instead of returning
false. -/
theorem C5_enable2FA_spec :
    (∀ (txFails : Bool) (totpValid : String → String → Bool) (uuid : Nat → String)
       (db : Db) (userId secret token : String) (backupCodes : List String),
      isErr (enable2FA false txFails totpValid uuid db userId secret token backupCodes) = true) ∧
    (∀ (txFails : Bool) (totpValid : String → String → Bool) (uuid : Nat → String)
       (db : Db) (userId secret token : String) (backupCodes : List String),
      totpValid secret token = false →
      enable2FA true txFails totpValid uuid db userId secret token backupCodes =
        .ok (false, db)) ∧
    (∀ (totpValid : String → String → Bool) (uuid : Nat → String)
       (db : Db) (userId secret token : String) (backupCodes : List String),
      totpValid secret token = true →
      enable2FA true true totpValid uuid db userId secret token backupCodes =
        .ok (false, db)) ∧
    (∀ (totpValid : String → String → Bool) (uuid : Nat → String)
       (db : Db) (userId secret token : String) (backupCodes : List String),
      totpValid secret token = true →
      ∃ db2 : Db,
        enable2FA true false totpValid uuid db userId secret token backupCodes =
          .ok (true, db2) ∧
        (∀ usr ∈ db2.users, usr.id = userId →
          usr.twoFactorEnabled = true ∧ usr.twoFactorSecret = some secret) ∧
        (∀ usr ∈ db.users, usr.id ≠ userId → usr ∈ db2.users) ∧
        (∀ rc ∈ db2.recoveryCodes, rc.userId = userId →
          rc.code ∈ backupCodes ∧ rc.used = false) ∧
        (∀ c ∈ backupCodes, ∃ rc ∈ db2.recoveryCodes,
          rc.userId = userId ∧ rc.code = c ∧ rc.used = false) ∧
        (∀ rc ∈ db.recoveryCodes, rc.userId ≠ userId → rc ∈ db2.recoveryCodes)) := by
  refine ⟨?_, ?_, ?_, ?_⟩
  · intro txFails totpValid uuid db userId secret token backupCodes
    simp [enable2FA, isErr]
  · intro txFails totpValid uuid db userId secret token backupCodes h
    simp [enable2FA, h]
  · intro totpValid uuid db userId secret token backupCodes h
    simp [enable2FA, h]
  · intro totpValid uuid db userId secret token backupCodes h
    refine ⟨{ db with
        users := db.users.map fun u =>
          if u.id == userId then
            { u with twoFactorEnabled := true, twoFactorSecret := some secret }
          else u,
        recoveryCodes := (db.recoveryCodes.filter fun rc => !(rc.userId == userId))
          ++ insertCodes uuid userId 0 backupCodes },
      by simp [enable2FA, h], ?_, ?_, ?_, ?_, ?_⟩
    · intro usr hm hid
      obtain ⟨u0, hu0, rfl⟩ := List.mem_map.mp hm
      by_cases hc : u0.id = userId
      · simp [hc]
      · simp only [show (u0.id == userId) = false by simpa using hc, if_false] at hid
        exact absurd hid hc
    · intro usr hm hne
      refine List.mem_map.mpr ⟨usr, hm, ?_⟩
      simp [show (usr.id == userId) = false by simpa using hne]
    · intro rc hm hid
      rcases List.mem_append.mp hm with hl | hr
      · have := List.mem_filter.mp hl
        simp only [Bool.not_eq_true'] at this
        rw [show (rc.userId == userId) = true by simpa using hid] at this
        exact absurd this.2 (by simp)
      · exact ⟨(mem_insertCodes hr).2.1, (mem_insertCodes hr).2.2⟩
    · intro c hc
      obtain ⟨rc, hmem, hp⟩ := insertCodes_covers hc 0
      exact ⟨rc, List.mem_append.mpr (Or.inr hmem), hp⟩
    · intro rc hm hne
      refine List.mem_append.mpr (Or.inl (List.mem_filter.mpr ⟨hm, ?_⟩))
      simp [show (rc.userId == userId) = false by simpa using hne]

/-- C5 witness: concrete invalid-token rejection (arguments chosen so the
oracle rejects). -/
theorem C5_enable2FA_spec_witness :
    enable2FA true false (fun s t => s == t) (fun _ => "id") ⟨[], [], [], [], [], [], []⟩
        "u1" "SECRET" "WRONG" ["AAAA1111"] = .ok (false, ⟨[], [], [], [], [], [], []⟩) := by
  exact C5_enable2FA_spec.2.1 false (fun s t => s == t) (fun _ => "id")
    ⟨[], [], [], [], [], [], []⟩ "u1" "SECRET" "WRONG" ["AAAA1111"] (by decide)

/-- C8: `generateNewBackupCodes` deletes only the user's unused recovery
codes, preserves every used code and other users' codes, inserts the
fresh batch unused, and throws both on transaction failure and when the
database feature is missing; `disable2FA` instead returns false (its
total boolean return models never throwing) in both failure modes, and on
success clears the flag and secret and deletes all of the user's codes,
used and unused. -/
theorem C8_backup_codes_regeneration_vs_disable :
    (∀ (txFails : Bool) (uuid : Nat → String) (db : Db) (userId : String)
       (freshCodes : List String),
      isErr (generateNewBackupCodes false txFails uuid db userId freshCodes) = true) ∧
    (∀ (uuid : Nat → String) (db : Db) (userId : String) (freshCodes : List String),
      isErr (generateNewBackupCodes true true uuid db userId freshCodes) = true) ∧
    (∀ (uuid : Nat → String) (db : Db) (userId : String) (freshCodes : List String),
      ∃ db2 : Db,
        generateNewBackupCodes true false uuid db userId freshCodes = .ok (freshCodes, db2) ∧
        db2.users = db.users ∧
        (∀ rc ∈ db.recoveryCodes, rc.used = true → rc ∈ db2.recoveryCodes) ∧
        (∀ rc ∈ db.recoveryCodes, rc.userId ≠ userId → rc ∈ db2.recoveryCodes) ∧
        (∀ rc ∈ db2.recoveryCodes, rc.userId = userId → rc.used = false →
          rc.code ∈ freshCodes) ∧
        (∀ c ∈ freshCodes, ∃ rc ∈ db2.recoveryCodes,
          rc.userId = userId ∧ rc.code = c ∧ rc.used = false)) ∧
    (∀ (txFails : Bool) (db : Db) (userId : String),
      disable2FA false txFails db userId = (false, db)) ∧
    (∀ (db : Db) (userId : String),
      disable2FA true true db userId = (false, db)) ∧
    (∀ (db : Db) (userId : String),
      ∃ db3 : Db,
        disable2FA true false db userId = (true, db3) ∧
        (∀ usr ∈ db3.users, usr.id = userId →
          usr.twoFactorEnabled = false ∧ usr.twoFactorSecret = none) ∧
        (∀ rc ∈ db3.recoveryCodes, rc.userId ≠ userId) ∧
        (∀ rc ∈ db.recoveryCodes, rc.userId ≠ userId → rc ∈ db3.recoveryCodes)) := by
  refine ⟨?_, ?_, ?_, ?_, ?_, ?_⟩
  · intro txFails uuid db userId freshCodes
    simp [generateNewBackupCodes, isErr]
  · intro uuid db userId freshCodes
    simp [generateNewBackupCodes, isErr]
  · intro uuid db userId freshCodes
    refine ⟨{ db with
        recoveryCodes := (db.recoveryCodes.filter fun rc =>
            !(rc.userId == userId && rc.used == false))
          ++ insertCodes uuid userId 0 freshCodes },
      by simp [generateNewBackupCodes], rfl, ?_, ?_, ?_, ?_⟩
    · intro rc hm hused
      refine List.mem_append.mpr (Or.inl (List.mem_filter.mpr ⟨hm, ?_⟩))
      simp [hused]
    · intro rc hm hne
      refine List.mem_append.mpr (Or.inl (List.mem_filter.mpr ⟨hm, ?_⟩))
      simp [show (rc.userId == userId) = false by simpa using hne]
    · intro rc hm hid hunused
      rcases List.mem_append.mp hm with hl | hr
      · have hp := (List.mem_filter.mp hl).2
        rw [show (rc.userId == userId) = true by simpa using hid,
          show (rc.used == false) = true by simpa using hunused] at hp
        exact absurd hp (by simp)
      · exact (mem_insertCodes hr).2.1
    · intro c hc
      obtain ⟨rc, hmem, hp⟩ := insertCodes_covers hc 0
      exact ⟨rc, List.mem_append.mpr (Or.inr hmem), hp⟩
  · intro txFails db userId
    simp [disable2FA]
  · intro db userId
    simp [disable2FA]
  · intro db userId
    refine ⟨{ db with
        users := db.users.map fun u =>
          if u.id == userId then
            { u with twoFactorEnabled := false, twoFactorSecret := none }
          else u,
        recoveryCodes := db.recoveryCodes.filter fun rc => !(rc.userId == userId) },
      by simp [disable2FA], ?_, ?_, ?_⟩
    · intro usr hm hid
      obtain ⟨u0, hu0, rfl⟩ := List.mem_map.mp hm
      by_cases hc : u0.id = userId
      · simp [hc]
      · simp only [show (u0.id == userId) = false by simpa using hc, if_false] at hid
        exact absurd hid hc
    · intro rc hm
      have hp := (List.mem_filter.mp hm).2
      simpa using hp
    · intro rc hm hne
      refine List.mem_filter.mpr ⟨hm, ?_⟩
      simp [show (rc.userId == userId) = false by simpa using hne]

/-- C4: with 2FA enabled and a secret present, `verify2FA` tries TOTP
first (a passing TOTP code succeeds with the state and the recovery-code
table untouched, whatever matching recovery codes exist); only when TOTP
fails does it consult the recovery codes, where only an unused exact
match fires — no unused match means failure without state change.  A hit
marks the matched code used with the current timestamp, returns the count
of remaining unused codes, and an immediate second call with the same
code (codes are unique per the schema constraint) returns invalid. -/
theorem C4_verify2FA_recovery_single_use
    (totpValid : String → String → Bool) (now now2 : Nat) (db : Db)
    (userId code secret : String) (user : UserRow)
    (hu : (db.users.filter fun u => u.id == userId).head? = some user)
    (hen : user.twoFactorEnabled = true)
    (hsec : user.twoFactorSecret = some secret)
    (hsne : secret ≠ "") :
    (totpValid secret code = true →
      verify2FA true totpValid now db userId code = (⟨true, none, none⟩, db)) ∧
    (totpValid secret code = false →
      (db.recoveryCodes.filter fun rc =>
        rc.userId == userId && rc.code == code && rc.used == false).head? = none →
      verify2FA true totpValid now db userId code = (⟨false, none, none⟩, db)) ∧
    (∀ rc0 : RecoveryCode,
      totpValid secret code = false →
      (db.recoveryCodes.filter fun rc =>
        rc.userId == userId && rc.code == code && rc.used == false).head? = some rc0 →
      (db.recoveryCodes.map fun rc => rc.code).Nodup →
      ∃ db1 : Db,
        verify2FA true totpValid now db userId code =
          (⟨true, some true, some (countUnusedCodes db1 userId)⟩, db1) ∧
        (∃ x ∈ db1.recoveryCodes,
          x.id = rc0.id ∧ x.code = code ∧ x.used = true ∧ x.usedAt = some now) ∧
        db1.users = db.users ∧
        verify2FA true totpValid now2 db1 userId code = (⟨false, none, none⟩, db1)) := by
  have hjs : jsTruthy user.twoFactorSecret = true := by
    simp [hsec, jsTruthy, hsne]
  have hget : user.twoFactorSecret.getD "" = secret := by rw [hsec]; rfl
  refine ⟨?_, ?_, ?_⟩
  · intro ht
    simp [verify2FA, hu, hen, hjs, hget, ht]
  · intro hf hnone
    exact verify2FA_totp_fail_no_recovery_match totpValid now db userId code secret user
      hu hen hsec hsne hf hnone
  · intro rc0 hf hsome hnodup
    obtain ⟨hrc0mem, hrc0p⟩ := head?_filter_spec _ _ _ hsome
    have hrc0 : (rc0.userId = userId ∧ rc0.code = code) ∧ rc0.used = false := by
      simpa using hrc0p
    have hfinds : List.find? (fun rc => rc.userId == userId && rc.code == code && !rc.used)
        db.recoveryCodes = some rc0 := by simpa using hsome
    refine ⟨{ db with recoveryCodes := db.recoveryCodes.map fun rc =>
        if rc.id == rc0.id then { rc with used := true, usedAt := some now } else rc },
      by simp [verify2FA, hu, hen, hjs, hget, hf, hfinds], ?_, rfl, ?_⟩
    · refine ⟨{ rc0 with used := true, usedAt := some now },
        List.mem_map.mpr ⟨rc0, hrc0mem, by simp⟩, rfl, hrc0.1.2, rfl, rfl⟩
    · have hnil : (List.filter (fun rc =>
          rc.userId == userId && rc.code == code && rc.used == false)
          (db.recoveryCodes.map fun rc =>
            if rc.id == rc0.id then { rc with used := true, usedAt := some now } else rc))
          = [] := by
        rw [List.filter_eq_nil_iff]
        intro x hx
        obtain ⟨y, hy, rfl⟩ := List.mem_map.mp hx
        by_cases hid : y.id = rc0.id
        · simp [hid]
        · simp only [show (y.id == rc0.id) = false by simpa using hid, if_false]
          intro hcon
          simp only [Bool.and_eq_true, beq_iff_eq] at hcon
          exact hid (congrArg RecoveryCode.id
            (List.inj_on_of_nodup_map hnodup hy hrc0mem (hcon.1.2.trans hrc0.1.2.symm)))
      exact verify2FA_totp_fail_no_recovery_match totpValid now2 _ userId code secret user
        hu hen hsec hsne hf (by rw [hnil]; rfl)

/-- C4 witness: one concrete enabled user with a single unused backup
code, a TOTP oracle that always rejects, and the two successive calls. -/
theorem C4_verify2FA_recovery_single_use_witness :
    (verify2FA true (fun _ _ => false) 5
      ⟨[⟨"u1", none, "a@b.c", "h", true, some "S3CRET"⟩], [], [], [], [], [],
        [⟨"rc1", "u1", "CODE1234", false, none⟩]⟩ "u1" "CODE1234").1.isValid = true := by
  have h := C4_verify2FA_recovery_single_use (fun _ _ => false) 5 6
    ⟨[⟨"u1", none, "a@b.c", "h", true, some "S3CRET"⟩], [], [], [], [], [],
      [⟨"rc1", "u1", "CODE1234", false, none⟩]⟩
    "u1" "CODE1234" "S3CRET" ⟨"u1", none, "a@b.c", "h", true, some "S3CRET"⟩
    (by decide) rfl rfl (by decide)
  obtain ⟨db1, heq, -, -, -⟩ := h.2.2 ⟨"rc1", "u1", "CODE1234", false, none⟩ rfl
    (by decide) (by decide)
  rw [heq]

/-- C8 witness: transaction failure makes regeneration throw while
disabling returns false on the same state. -/
theorem C8_backup_codes_regeneration_vs_disable_witness :
    isErr (generateNewBackupCodes true true (fun _ => "id") ⟨[], [], [], [], [], [], []⟩
      "u1" ["BBBB2222"]) = true ∧
    disable2FA true true ⟨[], [], [], [], [], [], []⟩ "u1" =
      (false, ⟨[], [], [], [], [], [], []⟩) := by
  have h := C8_backup_codes_regeneration_vs_disable
  exact ⟨h.2.1 (fun _ => "id") ⟨[], [], [], [], [], [], []⟩ "u1" ["BBBB2222"],
    h.2.2.2.2.1 ⟨[], [], [], [], [], [], []⟩ "u1"⟩

end NuxtAuth
